import Mathlib

/-!
Shallow embedding of the `miner_registrations` repository
(crates `shared` and `miner_registration`), for checking the
natural-language specification against the code.

Conventions of the embedding:
* Time is an explicit `Nat` clock in milliseconds.  Awaited I/O is modelled
  by environment-supplied outcomes and durations; pure computation and RPC
  reads whose latency no claim depends on are instantaneous.
* Fallible Rust calls (`Result`) become `Except`; `Option` stays `Option`.
* `Box<dyn std::error::Error>` values are modelled by `SharedLib.BoxErr`,
  which distinguishes a boxed plain string (`"...".into()`) from a boxed
  `shared::errors::Error` enum value, because the source constructs both.
-/

/-- Decidable equality for `Except`, used to evaluate the model on
concrete inputs. -/
instance instDecEqExcept {ε α : Type} [DecidableEq ε] [DecidableEq α] :
    DecidableEq (Except ε α)
  | .error e, .error f => decidable_of_iff (e = f) (by simp)
  | .error _, .ok _ => .isFalse (by simp)
  | .ok _, .error _ => .isFalse (by simp)
  | .ok a, .ok b => decidable_of_iff (a = b) (by simp)

namespace SharedLib

/-- The error enum of `shared/src/errors.rs` (the `subxt::Error` payload is
kept abstract as its display string). -/
inductive Error where
  | BlockHeaderNotFound
  | ExceededMaxWaitTime
  | SubxtError (e : String)
  | Other (s : String)
deriving DecidableEq

/-- A `Box<dyn std::error::Error>` value as the source builds them: either a
boxed string (from `str::into()` / `String::into()`) or a boxed
`shared::errors::Error`. -/
inductive BoxErr where
  | str (s : String)
  | shared (e : Error)
deriving DecidableEq

/-- A block header as used by `estimate_block_time`: only the `number`
field is read. -/
structure Header where
  number : Nat
deriving DecidableEq

/-- The chain backend seen by `estimate_block_time`
(`client.backend()`), modelled as total functions of the clock:
`latestHash t` is the hash returned by `latest_finalized_block_ref` at
time `t`, and `header h` is the result of `block_header h` (`none` models
missing header bytes).  RPC transport failures of these two reads are not
modelled: no claim concerns them, and reads are instantaneous. -/
structure Backend where
  latestHash : Nat → Nat
  header : Nat → Option Header

/-- `BASE_BLOCK_TIME = 12 s`, in milliseconds. -/
def BASE_BLOCK_TIME : Nat := 12000

/-- `MAX_BLOCK_TIME = 60 s`, in milliseconds. -/
def MAX_BLOCK_TIME : Nat := 60000

/-- `SAMPLE_SIZE = 10` blocks. -/
def SAMPLE_SIZE : Nat := 10

/-- `MAX_WAIT_TIME = 120 s`, in milliseconds. -/
def MAX_WAIT_TIME : Nat := 120000

/-- The string passed to `.into()` on the timeout path of
`estimate_block_time` (src/shared/src/lib.rs line 70). -/
def timeoutMsg : String := "Exceeded maximum wait time for block sampling"

/-- The `while { ... } { sleep(100ms); if elapsed > MAX_WAIT_TIME { return Err } }`
loop of `estimate_block_time` (src/shared/src/lib.rs lines 58-72).
`t0` is the start instant, `target` the target block number, `t` the
current clock.  Success returns the exit time; an error is paired with the
time at which it is raised.  `fuel` only bounds the recursion: whenever
`100 * fuel + (t - t0) > MAX_WAIT_TIME` the fuel-exhaustion branch is
unreachable (the timeout check fires first; see `pollLoop_fuel_congr`),
so with the initial fuel `1301` used by `estimate_block_time_timed` the
definition agrees with the source loop. -/
def pollLoop (B : Backend) (t0 target : Nat) : Nat → Nat → Except (BoxErr × Nat) Nat
  | t, fuel =>
    match B.header (B.latestHash t) with
    | none => .error (.shared (.Other "Block header not found"), t)
    | some h =>
      if h.number < target then
        if MAX_WAIT_TIME < t + 100 - t0 then
          .error (.str timeoutMsg, t + 100)
        else
          match fuel with
          | 0 => .error (.str timeoutMsg, t + 100)
          | fuel' + 1 => pollLoop B t0 target (t + 100) fuel'
      else .ok t

/-- `estimate_block_time` (src/shared/src/lib.rs lines 38-91) with the
final clock exposed: first component is the function's `Result`, second
the time at which it returns. -/
def estimate_block_time_timed (B : Backend) (t0 : Nat) : Except BoxErr Nat × Nat :=
  match B.header (B.latestHash t0) with
  | none => (.error (.shared (.Other "Start block header not found")), t0)
  | some h0 =>
    match pollLoop B t0 (h0.number + SAMPLE_SIZE) t0 1301 with
    | .error (e, te) => (.error e, te)
    | .ok tExit =>
      let elapsed := tExit - t0
      let avg := elapsed / SAMPLE_SIZE
      (.ok (min MAX_BLOCK_TIME (max BASE_BLOCK_TIME avg)), tExit)

/-- The `Result<Duration, _>` returned by `estimate_block_time`. -/
def estimate_block_time (B : Backend) (t0 : Nat) : Except BoxErr Nat :=
  (estimate_block_time_timed B t0).1

/-- Environment of `parse_config` (src/shared/src/lib.rs lines 99-116):
the outcome of `fs::read_to_string("config.toml")`, of
`toml::from_str` on a given string, and of `T::parse()` (clap). -/
structure ConfigEnv (T : Type) where
  readToString : Except String String
  tomlFromStr : String → Except String T
  cliParse : T

/-- `parse_config` (src/shared/src/lib.rs lines 99-116). -/
def parse_config {T : Type} (env : ConfigEnv T) : Except String T :=
  match env.readToString with
  | .ok configStr =>
    match env.tomlFromStr configStr with
    | .ok params => .ok params
    | .error e => .error e
  | .error _ => .ok env.cliParse

end SharedLib

namespace MinerReg

/-- `RegistrationParams` (src/miner_registration/src/main.rs lines 19-36). -/
structure RegistrationParams where
  coldkey : String
  hotkey : String
  netuid : Nat
  max_cost : Nat
  chain_endpoint : String
deriving DecidableEq

/-- An `sr25519::Pair`: only the public bytes are observed by the loop
(they enter the cached `call_data`). -/
structure KeyPair where
  pubBytes : List Nat
deriving DecidableEq

/-- Environment-supplied outcomes for one iteration of the
`while let Some(block) = blocks.next().await` loop of `register_hotkey`
(src/miner_registration/src/main.rs lines 82-163).

* `headAvailableAt`: absolute time at which the subscription yields this
  item; the loop receives it at `max currentTime headAvailableAt`
  (a buffered head is delivered immediately).
* `blockItem`: the `Result` inside the stream item (`block?`, line 83):
  the finalized block number, or a stream-item error.
* `costResult`/`costDur`: outcome and latency of `get_recycle_cost`
  (lines 99-101); the error case covers both RPC read failures and the
  absent-entry `"Burn value not found..."` string error of lines 190-196.
* `submitResult`/`submitDur`: outcome and latency of
  `sign_and_submit_then_watch` (lines 122-131).
* `finResult`/`finDur`: outcome and latency of
  `wait_for_finalized_success` (line 137). -/
structure TickIn where
  headAvailableAt : Nat
  blockItem : Except String Nat
  costResult : Except String Nat
  costDur : Nat
  submitResult : Except String Unit
  submitDur : Nat
  finResult : Except String Unit
  finDur : Nat
deriving DecidableEq

/-- The loop-local state of `register_hotkey`: the clock, the
`last_attempt` instant (line 72) and the `loops` counter (line 73). -/
structure LoopSt where
  time : Nat
  lastAttempt : Nat
  loops : Nat
deriving DecidableEq

/-- Observable events of one run.  `submit t cost la` records a
`sign_and_submit_then_watch` call issued at time `t`, on a tick whose
`get_recycle_cost` read returned `cost`, with `la` the value of
`last_attempt` current at that submission.  `gateSkip t cost` records the
cost-gate branch of lines 105-112 taken at time `t`.  `finFail t` and
`finalized t` record the two outcomes of `wait_for_finalized_success`
observed at time `t`. -/
inductive Event where
  | submit (t cost la : Nat)
  | gateSkip (t cost : Nat)
  | finFail (t : Nat)
  | finalized (t : Nat)
deriving DecidableEq

/-- Control outcome of one tick: continue the loop, `break` after a
finalized success (line 149), or propagate an error out of
`register_hotkey` (a `?` on lines 83, 100, or 131). -/
inductive Control where
  | next
  | done
  | fail (e : String)
deriving DecidableEq

/-- One iteration of the loop body, lines 82-163 of
src/miner_registration/src/main.rs: receive the head, increment `loops`,
read the recycle cost (`?` propagates its error), apply the cost gate
(warn, 1 s sleep, `continue`), sign-and-submit (`??` propagates), wait for
finalization (`break` on success, log-and-fall-through on failure), then
the rate-limit block of lines 157-162 (sleep up to 12 s measured from
`last_attempt`, then set `last_attempt` to now).  The submission instant
recorded in the `submit` event is the start of `sign_and_submit` (line
122). -/
def tickStep (p : RegistrationParams) (s : LoopSt) (i : TickIn) :
    LoopSt × List Event × Control :=
  let tHead := max s.time i.headAvailableAt
  match i.blockItem with
  | .error e => (⟨tHead, s.lastAttempt, s.loops⟩, [], .fail e)
  | .ok _blockNumber =>
    let loops' := s.loops + 1
    match i.costResult with
    | .error e => (⟨tHead + i.costDur, s.lastAttempt, loops'⟩, [], .fail e)
    | .ok cost =>
      let t2 := tHead + i.costDur
      if p.max_cost < cost then
        (⟨t2 + 1000, s.lastAttempt, loops'⟩, [.gateSkip t2 cost], .next)
      else
        let ev0 := Event.submit t2 cost s.lastAttempt
        match i.submitResult with
        | .error e => (⟨t2 + i.submitDur, s.lastAttempt, loops'⟩, [ev0], .fail e)
        | .ok _ =>
          let t4 := t2 + i.submitDur + i.finDur
          match i.finResult with
          | .ok _ => (⟨t4, s.lastAttempt, loops'⟩, [ev0, .finalized t4], .done)
          | .error _ =>
            let t5 :=
              if t4 - s.lastAttempt < 12000 then t4 + (12000 - (t4 - s.lastAttempt))
              else t4
            (⟨t5, t5, loops'⟩, [ev0, .finFail t4], .next)

/-- The `while let Some(block) = blocks.next().await` loop: folds
`tickStep` over the stream items; when the subscription yields nothing
further the `while let` exits and the function falls through to `Ok(())`
(line 165). -/
def runLoop (p : RegistrationParams) (s : LoopSt) :
    List TickIn → LoopSt × List Event × Except String Unit
  | [] => (s, [], .ok ())
  | i :: rest =>
    match tickStep p s i with
    | (s', evs, .next) =>
      match runLoop p s' rest with
      | (s'', evs', r) => (s'', evs ++ evs', r)
    | (s', evs, .done) => (s', evs, .ok ())
    | (s', evs, .fail e) => (s', evs, .error e)

/-- External interactions of `register_hotkey` before the loop, in source
order.  `connectRPC` is the `OnlineClient::from_url` call of line 61,
which performs RPC requests (it fetches the chain metadata and genesis
hash as part of client construction); `subscribeRPC` is
`subscribe_finalized` (line 71). -/
inductive Action where
  | connectRPC
  | subscribeRPC
deriving DecidableEq

/-- Environment of `register_hotkey`: the start instant, the outcome of
`OnlineClient::from_url`, the deterministic `sr25519::Pair::from_string`
parser (`none` models a parse failure), the outcome of
`subscribe_finalized`, and the stream of loop iterations. -/
structure Env where
  t0 : Nat
  connect : Except String Unit
  parseKey : String → Option KeyPair
  subscribe : Except String Unit
  ticks : List TickIn

/-- `register_hotkey` (src/miner_registration/src/main.rs lines 59-166):
connect, parse the coldkey then the hotkey (`map_err` to the strings
`"Invalid coldkey"` / `"Invalid hotkey"`), subscribe, initialize
`last_attempt` and `loops`, cache `call_data`, then run the loop.
Returns the ordered pre-loop actions, the event trace, and the
function's `Result`. -/
def register_hotkey (p : RegistrationParams) (env : Env) :
    List Action × List Event × Except String Unit :=
  match env.connect with
  | .error e => ([.connectRPC], [], .error e)
  | .ok _ =>
    match env.parseKey p.coldkey with
    | none => ([.connectRPC], [], .error "Invalid coldkey")
    | some _coldkey =>
      match env.parseKey p.hotkey with
      | none => ([.connectRPC], [], .error "Invalid hotkey")
      | some hotkey =>
        match env.subscribe with
        | .error e => ([.connectRPC, .subscribeRPC], [], .error e)
        | .ok _ =>
          let _call_data := (p.netuid, hotkey.pubBytes)
          let s0 : LoopSt := ⟨env.t0, env.t0, 0⟩
          match runLoop p s0 env.ticks with
          | (_s, evs, r) => ([.connectRPC, .subscribeRPC], evs, r)

/-- The exit status of `main` (src/miner_registration/src/main.rs lines
204-221): `0` when `register_hotkey` returns `Ok` (main then logs
"Registration process completed successfully."), nonzero otherwise. -/
def main_exit (p : RegistrationParams) (env : Env) : Nat :=
  match (register_hotkey p env).2.2 with
  | .ok _ => 0
  | .error _ => 1

/-- The submissions of a trace, as `(t, la)` pairs: submission instant
and the `last_attempt` value current at it. -/
def submitPairs (evs : List Event) : List (Nat × Nat) :=
  evs.filterMap fun e =>
    match e with
    | .submit t _ la => some (t, la)
    | _ => none

/-- The spacing property in the words of the spec (P2 / claim C8): any
two consecutive submission instants are at least `BASE_BLOCK_TIME`
(12 s) apart. -/
def spacedSub : List (Nat × Nat) → Bool
  | [] => true
  | [_] => true
  | a :: b :: rest => decide (a.1 + 12000 ≤ b.1) && spacedSub (b :: rest)

/-- The spacing the code actually enforces: each submission occurs at
least 12 s after the `last_attempt` value current at the previous
submission (consecutive `last_attempt` values are 12 s apart). -/
def spacedLA : List (Nat × Nat) → Bool
  | [] => true
  | [_] => true
  | a :: b :: rest => decide (a.2 + 12000 ≤ b.2) && spacedLA (b :: rest)

end MinerReg

/-! Concrete instances used to evaluate the model. -/

/-- A chain finalizing a block every 100 ms (hash = number): the sampling
target is reached after 1 s, so the measured average (100 ms) is clamped
up to `BASE_BLOCK_TIME`. -/
def Bfast : SharedLib.Backend := ⟨fun t => t / 100, fun h => some ⟨h⟩⟩

/-- A backend whose finalized head never advances past block 0. -/
def Bnever : SharedLib.Backend := ⟨fun _ => 0, fun _ => some ⟨0⟩⟩

/-- A backend whose header lookup always comes back empty. -/
def Bnohead : SharedLib.Backend := ⟨fun _ => 0, fun _ => none⟩

/-- A backend whose start header exists (hash 0) but whose later header
lookups come back empty. -/
def Blate : SharedLib.Backend :=
  ⟨fun t => t / 100, fun h => if h = 0 then some ⟨0⟩ else none⟩

/-- The happy-path request literal of the spec's scenario 1. -/
def pAlice : MinerReg.RegistrationParams :=
  ⟨"//Alice", "//Bob", 1, 1000000000, "ws://127.0.0.1:9944"⟩

/-- The bad-key request literal of the spec's scenario 5. -/
def pBadKey : MinerReg.RegistrationParams :=
  ⟨"not a seed", "//Bob", 1, 1000000000, "ws://127.0.0.1:9944"⟩

/-- A deterministic stand-in for `sr25519::Pair::from_string`: only the
literal `"not a seed"` fails to parse. -/
def parseSr : String → Option MinerReg.KeyPair :=
  fun s => if s = "not a seed" then none else some ⟨List.replicate 32 7⟩

/-- A tick whose `get_recycle_cost` read fails (transient RPC failure). -/
def tickCostFail : MinerReg.TickIn :=
  ⟨0, .ok 1, .error "RPC read failed", 5, .ok (), 0, .ok (), 0⟩

/-- Environment with a single tick whose cost read fails. -/
def envCostFail : MinerReg.Env := ⟨0, .ok (), parseSr, .ok (), [tickCostFail]⟩

/-- A tick that submits instantly and whose finalization watch reports a
dispatch failure, with head delivery at absolute time `avail`. -/
def tickFinFail (avail bn : Nat) : MinerReg.TickIn :=
  ⟨avail, .ok bn, .ok 0, 0, .ok (), 0, .error "dropped", 0⟩

/-- Environment where the first head arrives only at t = 100 s and the
second head is already buffered: both ticks submit, back to back. -/
def envLateHead : MinerReg.Env :=
  ⟨0, .ok (), parseSr, .ok (), [tickFinFail 100000 1, tickFinFail 0 2]⟩

/-- Environment whose finalized-head subscription ends immediately. -/
def envEmptyStream : MinerReg.Env := ⟨0, .ok (), parseSr, .ok (), []⟩

/-- A tick gated by cost: the read cost 2_000_000_000 exceeds
`pAlice.max_cost = 1_000_000_000`. -/
def tickGate : MinerReg.TickIn :=
  ⟨0, .ok 1, .ok 2000000000, 0, .ok (), 0, .ok (), 0⟩

/-- A tick that submits at cost 500_000_000 and finalizes successfully. -/
def tickFinOk : MinerReg.TickIn :=
  ⟨0, .ok 2, .ok 500000000, 0, .ok (), 0, .ok (), 0⟩

/-- The spec's scenario-2 shape: a gated tick followed by a submitting
tick that finalizes. -/
def envGate : MinerReg.Env := ⟨0, .ok (), parseSr, .ok (), [tickGate, tickFinOk]⟩

/-- A tick whose `sign_and_submit_then_watch` fails in transport. -/
def tickSubmitFail : MinerReg.TickIn :=
  ⟨0, .ok 1, .ok 0, 0, .error "connection reset", 0, .ok (), 0⟩

/-- A config environment where `config.toml` reads fine but is not valid
TOML for the parameter type. -/
def cfgEnvBadToml : SharedLib.ConfigEnv Nat :=
  ⟨.ok "max_cost = oops", fun _ => .error "invalid type", 42⟩

/-- A config environment where `config.toml` cannot be read. -/
def cfgEnvNoFile : SharedLib.ConfigEnv Nat :=
  ⟨.error "No such file or directory", fun _ => .error "unused", 42⟩

section EstimatorTheorems

open SharedLib

/-- Fuel is semantically inert: any two fuel budgets large enough that the
timeout check fires before fuel exhaustion give the same result, so
`pollLoop` with the initial fuel `1301` of `estimate_block_time_timed` is
a faithful rendering of the source's unbounded `while` loop. -/
lemma pollLoop_fuel_congr (B : Backend) (t0 target : Nat) :
    ∀ fuel₁ fuel₂ t, t0 ≤ t →
      120000 < 100 * fuel₁ + (t - t0) → 120000 < 100 * fuel₂ + (t - t0) →
      pollLoop B t0 target t fuel₁ = pollLoop B t0 target t fuel₂ := by
  intro fuel₁
  induction fuel₁ with
  | zero =>
    intro fuel₂ t ht h1 h2
    have hto : MAX_WAIT_TIME < t + 100 - t0 := by simp only [MAX_WAIT_TIME] ; omega
    cases fuel₂ with
    | zero => rfl
    | succ m =>
      cases hh : B.header (B.latestHash t) with
      | none => rw [pollLoop, pollLoop, hh]
      | some h =>
        rw [pollLoop, pollLoop, hh]
        dsimp only
        by_cases hn : h.number < target
        · rw [if_pos hn, if_pos hn, if_pos hto, if_pos hto]
        · rw [if_neg hn, if_neg hn]
  | succ n ih =>
    intro fuel₂ t ht h1 h2
    cases fuel₂ with
    | zero =>
      have hto : MAX_WAIT_TIME < t + 100 - t0 := by simp only [MAX_WAIT_TIME] ; omega
      cases hh : B.header (B.latestHash t) with
      | none => rw [pollLoop, pollLoop, hh]
      | some h =>
        rw [pollLoop, pollLoop, hh]
        dsimp only
        by_cases hn : h.number < target
        · rw [if_pos hn, if_pos hn, if_pos hto, if_pos hto]
        · rw [if_neg hn, if_neg hn]
    | succ m =>
      cases hh : B.header (B.latestHash t) with
      | none => rw [pollLoop, pollLoop, hh]
      | some h =>
        rw [pollLoop, pollLoop, hh]
        dsimp only
        by_cases hn : h.number < target
        · rw [if_pos hn, if_pos hn]
          by_cases hto : MAX_WAIT_TIME < t + 100 - t0
          · rw [if_pos hto, if_pos hto]
          · rw [if_neg hto, if_neg hto]
            exact ih m (t + 100) (by omega) (by omega) (by omega)
        · rw [if_neg hn, if_neg hn]

/-- Helper: with a chain view that never reaches the target block number,
the poll loop of `estimate_block_time` times out with the boxed-string
timeout error, exactly at `t0 + 120100` ms (the first 100 ms poll at
which elapsed strictly exceeds `MAX_WAIT_TIME`). -/
lemma pollLoop_never (B : Backend) (t0 target : Nat)
    (hn : ∀ t, ∃ h, B.header (B.latestHash t) = some h ∧ h.number < target) :
    ∀ fuel t, t0 ≤ t → t - t0 ≤ 120000 → (t - t0) % 100 = 0 →
      120000 < 100 * fuel + (t - t0) →
      pollLoop B t0 target t fuel = .error (.str timeoutMsg, t0 + 120100) := by
  intro fuel
  induction fuel with
  | zero => intro t _ h2 _ h4 ; exact absurd h4 (by omega)
  | succ n ih =>
    intro t h1 h2 h3 h4
    obtain ⟨h, hh, hlt⟩ := hn t
    rw [pollLoop, hh]
    simp only [hlt, if_true, MAX_WAIT_TIME]
    by_cases hto : 120000 < t + 100 - t0
    · rw [if_pos hto]
      have ht : t + 100 = t0 + 120100 := by omega
      rw [ht]
    · rw [if_neg hto]
      exact ih (t + 100) (by omega) (by omega) (by omega) (by omega)

/-- C4: every successful `estimate_block_time` result equals the elapsed
sampling time divided by `SAMPLE_SIZE`, clamped to
`[BASE_BLOCK_TIME, MAX_BLOCK_TIME]`: an average at or below 12 s comes
out as exactly 12 s, one at or above 60 s as exactly 60 s, and the result
always lies in `[12 s, 60 s]`. -/
theorem C4_estimator_clamp (B : Backend) (t0 d : Nat)
    (h : estimate_block_time B t0 = .ok d) :
    (BASE_BLOCK_TIME ≤ d ∧ d ≤ MAX_BLOCK_TIME) ∧
    ∃ h0 tExit, B.header (B.latestHash t0) = some h0 ∧
      pollLoop B t0 (h0.number + SAMPLE_SIZE) t0 1301 = .ok tExit ∧
      d = min MAX_BLOCK_TIME (max BASE_BLOCK_TIME ((tExit - t0) / SAMPLE_SIZE)) ∧
      ((tExit - t0) / SAMPLE_SIZE ≤ BASE_BLOCK_TIME → d = BASE_BLOCK_TIME) ∧
      (MAX_BLOCK_TIME ≤ (tExit - t0) / SAMPLE_SIZE → d = MAX_BLOCK_TIME) := by
  unfold estimate_block_time estimate_block_time_timed at h
  cases hh : B.header (B.latestHash t0) with
  | none => rw [hh] at h ; simp at h
  | some h0 =>
    rw [hh] at h
    dsimp only at h
    cases hp : pollLoop B t0 (h0.number + SAMPLE_SIZE) t0 1301 with
    | error pe =>
      obtain ⟨e, te⟩ := pe
      rw [hp] at h
      simp at h
    | ok tExit =>
      rw [hp] at h
      dsimp only at h
      simp only [Except.ok.injEq] at h
      refine ⟨?_, h0, tExit, rfl, hp, ?_, ?_, ?_⟩ <;>
        simp only [BASE_BLOCK_TIME, MAX_BLOCK_TIME, SAMPLE_SIZE] at h ⊢ <;>
        omega

/-- C4 witness: the clamp theorem applied to the fast backend `Bfast`
(one block per 100 ms), whose measured average of 100 ms is clamped up to
exactly 12 s. -/
theorem C4_estimator_clamp_witness :
    (BASE_BLOCK_TIME ≤ 12000 ∧ 12000 ≤ MAX_BLOCK_TIME) ∧
    ∃ h0 tExit, Bfast.header (Bfast.latestHash 0) = some h0 ∧
      pollLoop Bfast 0 (h0.number + SAMPLE_SIZE) 0 1301 = .ok tExit ∧
      (12000 : Nat) =
        min MAX_BLOCK_TIME (max BASE_BLOCK_TIME ((tExit - 0) / SAMPLE_SIZE)) ∧
      ((tExit - 0) / SAMPLE_SIZE ≤ BASE_BLOCK_TIME → (12000 : Nat) = BASE_BLOCK_TIME) ∧
      (MAX_BLOCK_TIME ≤ (tExit - 0) / SAMPLE_SIZE → (12000 : Nat) = MAX_BLOCK_TIME) :=
  C4_estimator_clamp Bfast 0 12000 (by decide)

/-- C5 (amended): if the chain view never reaches the target block
number, `estimate_block_time` fails with the boxed plain-string error
`"Exceeded maximum wait time for block sampling"` (not the
`Error::ExceededMaxWaitTime` variant, which the source never constructs),
and it returns 120.1 s after the start — the first 100 ms poll at which
elapsed strictly exceeds `MAX_WAIT_TIME` — not exactly at 120 s. -/
theorem C5_timeout_behavior (B : Backend) (t0 : Nat) (h0 : Header)
    (hstart : B.header (B.latestHash t0) = some h0)
    (hn : ∀ t, ∃ h, B.header (B.latestHash t) = some h ∧
      h.number < h0.number + SAMPLE_SIZE) :
    estimate_block_time_timed B t0 = (.error (.str timeoutMsg), t0 + 120100) ∧
    MAX_WAIT_TIME < 120100 := by
  constructor
  · unfold estimate_block_time_timed
    rw [hstart]
    dsimp only
    rw [pollLoop_never B t0 (h0.number + SAMPLE_SIZE) hn 1301 t0 (Nat.le_refl t0)
      (by omega) (by omega) (by omega)]
  · simp [MAX_WAIT_TIME]

set_option maxRecDepth 20000 in
/-- C5 counterexample: on the never-advancing backend `Bnever`, the
estimator returns a boxed string error — not `Error::ExceededMaxWaitTime`
— and it does so 120.1 s after the start, not exactly at
`MAX_WAIT_TIME = 120 s`. -/
theorem C5_timeout_not_exact :
    estimate_block_time_timed Bnever 0 = (.error (.str timeoutMsg), 120100) ∧
    (Except.error (BoxErr.str timeoutMsg) : Except BoxErr Nat) ≠
      .error (.shared .ExceededMaxWaitTime) ∧
    (120100 : Nat) ≠ MAX_WAIT_TIME := by
  refine ⟨by decide, by decide, by decide⟩

/-- C5 witness: the amended timeout theorem applied to the concrete
never-advancing backend `Bnever`. -/
theorem C5_timeout_behavior_witness :
    estimate_block_time_timed Bnever 0 = (.error (.str timeoutMsg), 0 + 120100) ∧
    MAX_WAIT_TIME < 120100 :=
  C5_timeout_behavior Bnever 0 ⟨0⟩ rfl
    (fun _ => ⟨⟨0⟩, rfl, by simp [SAMPLE_SIZE]⟩)

/-- C7 (amended): a missing header on the initial read makes
`estimate_block_time` fail with `Error::Other "Start block header not
found"`, and a missing header inside the poll loop makes it fail with
`Error::Other "Block header not found"` — in both cases `Error::Other`
with a message, never the declared-but-unused
`Error::BlockHeaderNotFound` variant. -/
theorem C7_missing_header (B : Backend) (t0 target t fuel : Nat) :
    (B.header (B.latestHash t0) = none →
      estimate_block_time B t0 = .error (.shared (.Other "Start block header not found"))) ∧
    (B.header (B.latestHash t) = none →
      pollLoop B t0 target t fuel = .error (.shared (.Other "Block header not found"), t)) := by
  constructor
  · intro hnone
    unfold estimate_block_time estimate_block_time_timed
    rw [hnone]
  · intro hnone
    cases fuel with
    | zero => rw [pollLoop, hnone]
    | succ n => rw [pollLoop, hnone]


/-- C7 counterexample: on the backend `Bnohead` whose header lookup is
empty, the estimator's error is `Error::Other` with a message, not
`Error::BlockHeaderNotFound`. -/
theorem C7_error_is_other :
    estimate_block_time Bnohead 0 =
      .error (.shared (.Other "Start block header not found")) ∧
    (Except.error (BoxErr.shared (.Other "Start block header not found")) :
      Except BoxErr Nat) ≠ .error (.shared .BlockHeaderNotFound) := by
  refine ⟨by decide, by decide⟩

/-- C7 witness: the amended missing-header theorem applied to the
concrete backends `Bnohead` (initial read) and `Blate` (poll-loop read at
t = 100, whose hash 1 has no header). -/
theorem C7_missing_header_witness :
    (Bnohead.header (Bnohead.latestHash 0) = none →
      estimate_block_time Bnohead 0 =
        .error (.shared (.Other "Start block header not found"))) ∧
    (Blate.header (Blate.latestHash 100) = none →
      pollLoop Blate 0 10 100 1300 =
        .error (.shared (.Other "Block header not found"), 100)) ∧
    Bnohead.header (Bnohead.latestHash 0) = none ∧
    Blate.header (Blate.latestHash 100) = none :=
  ⟨(C7_missing_header Bnohead 0 10 100 1300).1,
   (C7_missing_header Blate 0 10 100 1300).2,
   by decide, by decide⟩

/-- C9: `parse_config` falls back to command-line parsing exactly when
`config.toml` cannot be read; when the file reads but fails to parse as
TOML for the parameter type, the parse error is returned and the command
line is not consulted. -/
theorem C9_config_fallback {T : Type} (env : ConfigEnv T) (s e io : String) :
    (env.readToString = .ok s → env.tomlFromStr s = .error e →
      parse_config env = .error e) ∧
    (env.readToString = .error io → parse_config env = .ok env.cliParse) := by
  constructor
  · intro hread hparse
    unfold parse_config
    rw [hread]
    dsimp only
    rw [hparse]
  · intro hread
    unfold parse_config
    rw [hread]

/-- C9 witness: the config theorem applied to a concrete bad-TOML
environment and a concrete missing-file environment. -/
theorem C9_config_fallback_witness :
    parse_config cfgEnvBadToml = .error "invalid type" ∧
    parse_config cfgEnvNoFile = .ok 42 :=
  ⟨(C9_config_fallback cfgEnvBadToml "max_cost = oops" "invalid type" "x").1
      rfl rfl,
   (C9_config_fallback cfgEnvNoFile "s" "e" "No such file or directory").2 rfl⟩

end EstimatorTheorems

section LoopTheorems

open MinerReg

/-- Helper: every `submit` event emitted by a single tick carries a cost
within `max_cost` (the cost gate precedes `sign_and_submit`). -/
lemma tickStep_submit_cost (p : RegistrationParams) (s : LoopSt) (i : TickIn)
    (t c la : Nat) (hm : Event.submit t c la ∈ (tickStep p s i).2.1) :
    c ≤ p.max_cost := by
  unfold tickStep at hm
  repeat' split at hm
  all_goals simp_all

/-- Helper: the shape of one tick, for the spacing invariant.  Under the
invariant `lastAttempt ≤ time`, a tick preserves the invariant and
either emits no submission and leaves `lastAttempt` unchanged, or emits
exactly one submission `(t, lastAttempt)` with `lastAttempt ≤ t`, and —
when the tick continues the loop — its rate-limit block has pushed
`lastAttempt` forward by at least 12 s. -/
lemma tickStep_spec (p : RegistrationParams) (s : LoopSt) (i : TickIn)
    (hinv : s.lastAttempt ≤ s.time) :
    (tickStep p s i).1.lastAttempt ≤ (tickStep p s i).1.time ∧
    ((submitPairs (tickStep p s i).2.1 = [] ∧
        (tickStep p s i).1.lastAttempt = s.lastAttempt) ∨
      (∃ t, submitPairs (tickStep p s i).2.1 = [(t, s.lastAttempt)] ∧
        s.lastAttempt ≤ t ∧
        ((tickStep p s i).2.2 = Control.next →
          s.lastAttempt + 12000 ≤ (tickStep p s i).1.lastAttempt))) := by
  unfold tickStep
  repeat' split
  all_goals dsimp only [submitPairs, List.filterMap]
  · exact ⟨by omega, Or.inl ⟨rfl, rfl⟩⟩
  · exact ⟨by omega, Or.inl ⟨rfl, rfl⟩⟩
  · exact ⟨by omega, Or.inl ⟨rfl, rfl⟩⟩
  · exact ⟨by omega, Or.inr ⟨_, rfl, by omega, fun h => nomatch h⟩⟩
  · exact ⟨by omega, Or.inr ⟨_, rfl, by omega, fun h => nomatch h⟩⟩
  · exact ⟨by omega, Or.inr ⟨_, rfl, by omega, fun _ => by split <;> omega⟩⟩

/-- Helper: `spacedLA` extends through a cons whose tail pairs are all at
least 12 s later in `lastAttempt`. -/
lemma spacedLA_cons (a : Nat × Nat) (l : List (Nat × Nat))
    (h1 : ∀ pr ∈ l, a.2 + 12000 ≤ pr.2) (h2 : spacedLA l = true) :
    spacedLA (a :: l) = true := by
  cases l with
  | nil => rfl
  | cons b rest =>
    simp only [spacedLA, Bool.and_eq_true, decide_eq_true_eq]
    exact ⟨h1 b (List.mem_cons_self b rest), h2⟩

/-- Helper: spacing invariant of the whole loop.  From a state satisfying
`lastAttempt ≤ time`, every submission of the run happens no earlier than
the current `lastAttempt` and no earlier than the `lastAttempt` value it
records, and consecutive submissions are 12 s apart in recorded
`lastAttempt`. -/
lemma runLoop_spacing (p : RegistrationParams) :
    ∀ (ticks : List TickIn) (s : LoopSt), s.lastAttempt ≤ s.time →
      (∀ pr ∈ submitPairs (runLoop p s ticks).2.1,
        s.lastAttempt ≤ pr.2 ∧ pr.2 ≤ pr.1) ∧
      spacedLA (submitPairs (runLoop p s ticks).2.1) = true := by
  intro ticks
  induction ticks with
  | nil =>
    intro s _
    exact ⟨fun pr hpr => absurd hpr (by simp [runLoop, submitPairs]), rfl⟩
  | cons i rest ih =>
    intro s hinv
    obtain ⟨hinv', hcase⟩ := tickStep_spec p s i hinv
    rcases h1 : tickStep p s i with ⟨s', evs, c⟩
    rw [h1] at hinv' hcase
    dsimp only at hinv' hcase
    cases c with
    | next =>
      rcases h2 : runLoop p s' rest with ⟨s'', evs', r⟩
      obtain ⟨ihb, ihs⟩ := ih s' hinv'
      rw [h2] at ihb ihs
      simp only [runLoop, h1, h2]
      rw [submitPairs, List.filterMap_append, ← submitPairs, ← submitPairs]
      rcases hcase with ⟨hpe, hla⟩ | ⟨t, hpt, hlt, himp⟩
      · rw [hpe, List.nil_append, ← hla]
        exact ⟨fun pr hpr => ihb pr hpr, ihs⟩
      · rw [hpt, List.singleton_append]
        have hpush := himp rfl
        constructor
        · intro pr hpr
          rcases List.mem_cons.mp hpr with hh | hh
          · rw [hh] ; exact ⟨Nat.le_refl _, hlt⟩
          · have := ihb pr hh
            exact ⟨by omega, this.2⟩
        · refine spacedLA_cons _ _ (fun pr hpr => ?_) ihs
          have := ihb pr hpr
          dsimp only
          omega
    | done =>
      simp only [runLoop, h1]
      rcases hcase with ⟨hpe, _⟩ | ⟨t, hpt, hlt, _⟩
      · rw [hpe]
        exact ⟨fun pr hpr => absurd hpr (by simp), rfl⟩
      · rw [hpt]
        constructor
        · intro pr hpr
          rcases List.mem_singleton.mp hpr with rfl
          exact ⟨Nat.le_refl _, hlt⟩
        · rfl
    | fail e =>
      simp only [runLoop, h1]
      rcases hcase with ⟨hpe, _⟩ | ⟨t, hpt, hlt, _⟩
      · rw [hpe]
        exact ⟨fun pr hpr => absurd hpr (by simp), rfl⟩
      · rw [hpt]
        constructor
        · intro pr hpr
          rcases List.mem_singleton.mp hpr with rfl
          exact ⟨Nat.le_refl _, hlt⟩
        · rfl

/-- Helper: every submission of a whole run respects the cost gate. -/
lemma runLoop_costGate (p : RegistrationParams) :
    ∀ (ticks : List TickIn) (s : LoopSt) (t c la : Nat),
      Event.submit t c la ∈ (runLoop p s ticks).2.1 → c ≤ p.max_cost := by
  intro ticks
  induction ticks with
  | nil => intro s t c la hm ; exact absurd hm (by simp [runLoop])
  | cons i rest ih =>
    intro s t c la hm
    rcases h1 : tickStep p s i with ⟨s', evs, c'⟩
    rw [runLoop] at hm
    rw [h1] at hm
    have hevs : Event.submit t c la ∈ evs → c ≤ p.max_cost := by
      intro hin
      have := tickStep_submit_cost p s i t c la (by rw [h1] ; exact hin)
      exact this
    cases c' with
    | next =>
      dsimp only at hm
      rcases h2 : runLoop p s' rest with ⟨s'', evs', r⟩
      rw [h2] at hm
      dsimp only at hm
      rcases List.mem_append.mp hm with hh | hh
      · exact hevs hh
      · exact ih s' t c la (by rw [h2] ; exact hh)
    | done => exact hevs hm
    | fail e => exact hevs hm

/-- C1 (amended): only `wait_for_finalized_success` failures are
swallowed by the loop (the tick continues); a `get_recycle_cost` failure
or a `sign_and_submit_then_watch` failure is propagated by `?` and makes
`register_hotkey` return that error, terminating the loop. -/
theorem C1_transient_propagation :
    (∀ (p : RegistrationParams) (s : LoopSt) (i : TickIn) (bn cost : Nat) (e : String),
      i.blockItem = .ok bn → i.costResult = .ok cost → cost ≤ p.max_cost →
      i.submitResult = .ok () → i.finResult = .error e →
      (tickStep p s i).2.2 = Control.next) ∧
    (∀ (p : RegistrationParams) (s : LoopSt) (i : TickIn) (bn : Nat) (e : String),
      i.blockItem = .ok bn → i.costResult = .error e →
      (tickStep p s i).2.2 = Control.fail e) ∧
    (∀ (p : RegistrationParams) (s : LoopSt) (i : TickIn) (bn cost : Nat) (e : String),
      i.blockItem = .ok bn → i.costResult = .ok cost → cost ≤ p.max_cost →
      i.submitResult = .error e →
      (tickStep p s i).2.2 = Control.fail e) ∧
    (∀ (p : RegistrationParams) (s : LoopSt) (i : TickIn) (rest : List TickIn)
      (e : String),
      (tickStep p s i).2.2 = Control.fail e →
      (runLoop p s (i :: rest)).2.2 = .error e) := by
  refine ⟨?_, ?_, ?_, ?_⟩
  · intro p s i bn cost e hb hc hle hs hf
    unfold tickStep
    rw [hb, hc, hs, hf]
    dsimp only
    rw [if_neg (Nat.not_lt.mpr hle)]
  · intro p s i bn e hb hc
    unfold tickStep
    rw [hb, hc]
  · intro p s i bn cost e hb hc hle hs
    unfold tickStep
    rw [hb, hc, hs]
    dsimp only
    rw [if_neg (Nat.not_lt.mpr hle)]
  · intro p s i rest e hfail
    rcases h1 : tickStep p s i with ⟨s', evs, c⟩
    rw [h1] at hfail
    dsimp only at hfail
    subst hfail
    simp only [runLoop, h1]

/-- C1 counterexample: on a tick whose cost-oracle read fails,
`register_hotkey` returns that error instead of swallowing it and
continuing. -/
theorem C1_costfail_returns_error :
    (register_hotkey pAlice envCostFail).2.2 = .error "RPC read failed" ∧
    (register_hotkey pAlice envCostFail).2.2 ≠ .ok () := by
  exact ⟨by decide, by decide⟩

/-- C1 witness: the amended propagation theorem applied to concrete
ticks (finalization failure continues; cost-read failure and submit
failure produce `fail`, and `fail` makes the loop return the error). -/
theorem C1_transient_propagation_witness :
    (tickStep pAlice ⟨0, 0, 0⟩ (tickFinFail 0 1)).2.2 = Control.next ∧
    (tickStep pAlice ⟨0, 0, 0⟩ tickCostFail).2.2 = Control.fail "RPC read failed" ∧
    (tickStep pAlice ⟨0, 0, 0⟩ tickSubmitFail).2.2 = Control.fail "connection reset" ∧
    (runLoop pAlice ⟨0, 0, 0⟩ [tickCostFail]).2.2 = .error "RPC read failed" :=
  ⟨C1_transient_propagation.1 pAlice ⟨0, 0, 0⟩ (tickFinFail 0 1) 1 0 "dropped"
      (by decide) (by decide) (by decide) (by decide) (by decide),
   C1_transient_propagation.2.1 pAlice ⟨0, 0, 0⟩ tickCostFail 1 "RPC read failed"
      (by decide) (by decide),
   C1_transient_propagation.2.2.1 pAlice ⟨0, 0, 0⟩ tickSubmitFail 1 0 "connection reset"
      (by decide) (by decide) (by decide) (by decide),
   C1_transient_propagation.2.2.2 pAlice ⟨0, 0, 0⟩ tickCostFail [] "RPC read failed"
      (by decide)⟩

/-- C2: when the finalized-head subscription ends without yielding a
header, the `while let` exits and `register_hotkey` falls through to
`Ok(())`: no `StreamClosed` error exists, `main` exits `0` and logs
success.  This contradicts both the spec and the function's own
documentation ("Ok if registration is successful"). -/
theorem C2_stream_end_returns_ok :
    register_hotkey pAlice envEmptyStream =
      ([.connectRPC, .subscribeRPC], [], .ok ()) ∧
    main_exit pAlice envEmptyStream = 0 ∧
    (∀ (p : RegistrationParams) (s : LoopSt), runLoop p s [] = (s, [], .ok ())) :=
  ⟨by decide, by decide, fun _ _ => rfl⟩

/-- C3: the cost gate holds on every run — every submission the loop
issues was read at a cost within `max_cost` — and a tick whose cost
exceeds `max_cost` logs, sleeps 1 s, and continues to the next head
without submitting and without touching `last_attempt`. -/
theorem C3_cost_gate (p : RegistrationParams) (env : Env) (t c la : Nat)
    (s : LoopSt) (i : TickIn) (bn cost : Nat) :
    (Event.submit t c la ∈ (register_hotkey p env).2.1 → c ≤ p.max_cost) ∧
    (i.blockItem = .ok bn → i.costResult = .ok cost → p.max_cost < cost →
      tickStep p s i =
        (⟨max s.time i.headAvailableAt + i.costDur + 1000, s.lastAttempt, s.loops + 1⟩,
         [.gateSkip (max s.time i.headAvailableAt + i.costDur) cost], .next)) := by
  constructor
  · intro hm
    unfold register_hotkey at hm
    rcases hcon : env.connect with e | u
    · rw [hcon] at hm ; simp at hm
    · rw [hcon] at hm
      dsimp only at hm
      rcases hk : env.parseKey p.coldkey with _ | ck
      · rw [hk] at hm ; simp at hm
      · rw [hk] at hm
        dsimp only at hm
        rcases hh : env.parseKey p.hotkey with _ | hk2
        · rw [hh] at hm ; simp at hm
        · rw [hh] at hm
          dsimp only at hm
          rcases hsub : env.subscribe with e | u2
          · rw [hsub] at hm ; simp at hm
          · rw [hsub] at hm
            dsimp only at hm
            exact runLoop_costGate p env.ticks ⟨env.t0, env.t0, 0⟩ t c la hm
  · intro hb hc hgt
    unfold tickStep
    rw [hb, hc]
    dsimp only
    rw [if_pos hgt]

/-- C3 witness: the gate theorem applied to the scenario-2 run `envGate`
(its second tick submits at cost 500_000_000) and to the gated tick
`tickGate`. -/
theorem C3_cost_gate_witness :
    (500000000 : Nat) ≤ pAlice.max_cost ∧
    tickStep pAlice ⟨0, 0, 0⟩ tickGate =
      (⟨1000, 0, 1⟩, [.gateSkip 0 2000000000], .next) :=
  ⟨(C3_cost_gate pAlice envGate 1000 500000000 0 ⟨0, 0, 0⟩ tickGate 1 2000000000).1
      (by decide),
   (C3_cost_gate pAlice envGate 1000 500000000 0 ⟨0, 0, 0⟩ tickGate 1 2000000000).2
      (by decide) (by decide) (by decide)⟩

/-- C6 (amended): an unparseable coldkey seed makes `register_hotkey`
fail with the `"Invalid coldkey"` error before any storage read,
subscription or submission — but only after `OnlineClient::from_url` has
already connected to the endpoint (which itself performs RPC), so the
parse failure is not prior to all RPC activity. -/
theorem C6_invalid_key (p : RegistrationParams) (env : Env)
    (hc : env.connect = .ok ()) (hk : env.parseKey p.coldkey = none) :
    register_hotkey p env = ([.connectRPC], [], .error "Invalid coldkey") := by
  unfold register_hotkey
  rw [hc]
  dsimp only
  rw [hk]

/-- C6 counterexample: with `coldkey = "not a seed"`, the error is
reached only after the `connectRPC` action — the client connection, an
RPC interaction, precedes the key failure, refuting "no RPC call is
issued before that failure". -/
theorem C6_rpc_before_key :
    register_hotkey pBadKey envEmptyStream =
      ([.connectRPC], [], .error "Invalid coldkey") ∧
    Action.connectRPC ∈ (register_hotkey pBadKey envEmptyStream).1 := by
  exact ⟨by decide, by decide⟩

/-- C6 witness: the amended invalid-key theorem applied to the concrete
bad-key request. -/
theorem C6_invalid_key_witness :
    register_hotkey pBadKey envEmptyStream =
      ([.connectRPC], [], .error "Invalid coldkey") :=
  C6_invalid_key pBadKey envEmptyStream rfl (by decide)

/-- C8 (amended): in every run, each submission carries the
`last_attempt` value current at it (never later than the submission
instant), and consecutive submissions are at least 12 s apart in those
recorded `last_attempt` values — so each submission occurs at least 12 s
after the `last_attempt` current at the previous one.  The gap between
the submission instants themselves can be smaller (see the
counterexample). -/
theorem C8_spacing (p : RegistrationParams) (env : Env) :
    (∀ pr ∈ submitPairs (register_hotkey p env).2.1, pr.2 ≤ pr.1) ∧
    spacedLA (submitPairs (register_hotkey p env).2.1) = true := by
  unfold register_hotkey
  rcases env.connect with e | u
  · exact ⟨fun pr hpr => absurd hpr (by simp [submitPairs]), rfl⟩
  · rcases env.parseKey p.coldkey with _ | ck
    · exact ⟨fun pr hpr => absurd hpr (by simp [submitPairs]), rfl⟩
    · rcases env.parseKey p.hotkey with _ | hk2
      · exact ⟨fun pr hpr => absurd hpr (by simp [submitPairs]), rfl⟩
      · rcases env.subscribe with e | u2
        · exact ⟨fun pr hpr => absurd hpr (by simp [submitPairs]), rfl⟩
        · obtain ⟨hb, hs⟩ :=
            runLoop_spacing p env.ticks ⟨env.t0, env.t0, 0⟩ (Nat.le_refl _)
          exact ⟨fun pr hpr => (hb pr hpr).2, hs⟩

/-- C8 witness: the spacing theorem applied to the concrete run
`envLateHead`, discharging the membership hypothesis at its first
submission pair. -/
theorem C8_spacing_witness :
    (0 : Nat) ≤ 100000 ∧
    spacedLA (submitPairs (register_hotkey pAlice envLateHead).2.1) = true :=
  ⟨(C8_spacing pAlice envLateHead).1 (100000, 0) (by decide),
   (C8_spacing pAlice envLateHead).2⟩

/-- C8 counterexample: when the first head arrives only at t = 100 s and
the next head is already buffered, the loop issues two consecutive
submissions at the same instant (gap 0 s < 12 s): the rate limit
measures from `last_attempt`, which was set long before the first
submission of the pair. -/
theorem C8_subsecond_gap :
    submitPairs (register_hotkey pAlice envLateHead).2.1 =
      [(100000, 0), (100000, 100000)] ∧
    spacedSub (submitPairs (register_hotkey pAlice envLateHead).2.1) = false := by
  exact ⟨by decide, by decide⟩

/-- C10: a tick skipped by the cost gate leaves `last_attempt` unchanged
and bypasses the 12-second rate-limit block entirely — it sleeps exactly
1 s after the cost read and continues, emitting no submission — and
`last_attempt` is only ever changed by a tick that did submit. -/
theorem C10_gate_frame (p : RegistrationParams) (s : LoopSt) (i : TickIn)
    (bn cost : Nat) :
    (i.blockItem = .ok bn → i.costResult = .ok cost → p.max_cost < cost →
      ((tickStep p s i).1.lastAttempt = s.lastAttempt ∧
       (tickStep p s i).1.time = max s.time i.headAvailableAt + i.costDur + 1000 ∧
       (tickStep p s i).2.2 = Control.next ∧
       ∀ t c la, Event.submit t c la ∉ (tickStep p s i).2.1)) ∧
    ((tickStep p s i).1.lastAttempt ≠ s.lastAttempt →
      ∃ t c la, Event.submit t c la ∈ (tickStep p s i).2.1) := by
  constructor
  · intro hb hc hgt
    unfold tickStep
    rw [hb, hc]
    dsimp only
    rw [if_pos hgt]
    exact ⟨rfl, rfl, rfl, fun t c la => by simp⟩
  · intro hne
    unfold tickStep at hne ⊢
    repeat' split
    all_goals simp_all

/-- C10 witness: the frame theorem applied to the concrete gated tick
and to a submitting tick that does move `last_attempt`. -/
theorem C10_gate_frame_witness :
    ((tickStep pAlice ⟨0, 0, 0⟩ tickGate).1.lastAttempt = 0 ∧
     (tickStep pAlice ⟨0, 0, 0⟩ tickGate).1.time = 1000 ∧
     (tickStep pAlice ⟨0, 0, 0⟩ tickGate).2.2 = Control.next ∧
     ∀ t c la, Event.submit t c la ∉ (tickStep pAlice ⟨0, 0, 0⟩ tickGate).2.1) ∧
    (∃ t c la, Event.submit t c la ∈
      (tickStep pAlice ⟨0, 0, 0⟩ (tickFinFail 0 1)).2.1) :=
  ⟨(C10_gate_frame pAlice ⟨0, 0, 0⟩ tickGate 1 2000000000).1
      (by decide) (by decide) (by decide),
   (C10_gate_frame pAlice ⟨0, 0, 0⟩ (tickFinFail 0 1) 1 0).2 (by decide)⟩

end LoopTheorems
